import Mathlib

/-!
Verification of the FairShare proration engine
(src/src/pages/GroupHomePage.tsx).

Shallow embedding conventions:
* Calendar dates are modelled as integer day numbers (`ℤ`).  All dates the
  engine compares are first passed through `normalizeDate`, which truncates to
  local midnight; at day granularity that normalisation is the identity, so it
  is not represented.
* Monetary amounts are `ℚ` (the spec mandates exact decimal arithmetic).
* `new Date()` (the ambient current date read inside `calculateUsageForItem`)
  becomes an explicit `today : ℤ` parameter.
* Fields of `Member` / `Item` that the engine's arithmetic never touches
  (`user_id`, `group_id`, `role`, `email`, ...) are omitted.
-/

structure Member where
  id : ℕ
  name : String
  joined_at : ℤ
  leave_date : Option ℤ
deriving DecidableEq, Repr

structure Item where
  id : ℕ
  name : String
  price : ℚ
  purchase_date : ℤ
  depreciation_years : Option ℤ
  depreciation_days : Option ℤ
deriving DecidableEq, Repr

/-- `getDepreciationDays`:
`Math.max(1, Math.round(item.depreciation_days ?? (item.depreciation_years ?
item.depreciation_years * 365 : 365)))`.  The `??` falls through only on
null/undefined, while the ternary on `depreciation_years` is a truthiness
test, so a stored `0` years falls back to 365.  The depreciation fields are
integers throughout the repository (the API schemas validate them with
`z.number().int()` and the database columns are INTEGER), so `Math.round` is
the identity and the fields are modelled as `Option ℤ`. -/
def getDepreciationDays (item : Item) : ℕ :=
  let rawDays : ℤ :=
    match item.depreciation_days with
    | some d => d
    | none =>
      match item.depreciation_years with
      | some y => if y = 0 then 365 else y * 365
      | none => 365
  max 1 rawDays.toNat

/-- `getDepreciationEndDate`: `purchaseDate + (depreciationDays - 1)` days. -/
def getDepreciationEndDate (item : Item) : ℤ :=
  item.purchase_date + ((getDepreciationDays item : ℤ) - 1)

/-- `getDepreciatedValueAtDate`: full price before purchase, `0` once
`daysElapsed >= depreciationDays`, otherwise linear
`price / depreciationDays * remainingDays`. -/
def getDepreciatedValueAtDate (item : Item) (atDate : ℤ) : ℚ :=
  let purchaseDate := item.purchase_date
  let depreciationDays := getDepreciationDays item
  if atDate < purchaseDate then item.price
  else
    let daysElapsed : ℤ := atDate - purchaseDate
    if (depreciationDays : ℤ) ≤ daysElapsed then 0
    else (item.price / (depreciationDays : ℚ)) *
      ((depreciationDays : ℚ) - (daysElapsed : ℚ))

/-- `isMemberPresentOnDay`: joined on or before the day, and either no leave
date or a leave date not strictly before the day. -/
def isMemberPresentOnDay (member : Member) (day : ℤ) : Bool :=
  if day < member.joined_at then false
  else
    match member.leave_date with
    | some leaveDate => if leaveDate < day then false else true
    | none => true

/-- `getMembersPresentOnDay`: filter of `isMemberPresentOnDay`. -/
def getMembersPresentOnDay (members : List Member) (day : ℤ) : List Member :=
  members.filter (fun m => isMemberPresentOnDay m day)

/-- `calculateBuyInForItem`: zero for original purchasers, for a worthless
item, or (defensively) for an empty present set; otherwise the depreciated
value at the join date split over everyone present then (joiner included). -/
def calculateBuyInForItem (member : Member) (item : Item)
    (allMembers : List Member) : ℚ :=
  let purchaseDate := item.purchase_date
  let memberJoinDate := member.joined_at
  if memberJoinDate ≤ purchaseDate then 0
  else
    let valueAtJoin := getDepreciatedValueAtDate item memberJoinDate
    if valueAtJoin ≤ 0 then 0
    else
      let membersAtJoin := getMembersPresentOnDay allMembers memberJoinDate
      if membersAtJoin.length = 0 then 0
      else valueAtJoin / (membersAtJoin.length : ℚ)

/-- Body of the `while (cursor <= last)` day loop of `calculateUsageForItem`,
run for a given number of days starting at `cursor`: each day adds
`perDayValue / presentCount` when at least one member is present. -/
def usageLoop (allMembers : List Member) (perDayValue : ℚ) (cursor : ℤ) :
    ℕ → ℚ
  | 0 => 0
  | Nat.succ n =>
    let presentMembers := getMembersPresentOnDay allMembers cursor
    (if 0 < presentMembers.length then
        perDayValue / (presentMembers.length : ℚ)
      else 0)
      + usageLoop allMembers perDayValue (cursor + 1) n

/-- `calculateUsageForItem`.  `today` stands for the `new Date()` the source
reads from the environment; `endDate` is the optional caller cutoff. -/
def calculateUsageForItem (member : Member) (item : Item)
    (allMembers : List Member) (endDate : Option ℤ) (today : ℤ) : ℚ :=
  let purchaseDate := item.purchase_date
  let memberJoinDate := member.joined_at
  let depreciationEnd := getDepreciationEndDate item
  let depreciationDays := getDepreciationDays item
  let perDayValue := item.price / (depreciationDays : ℚ)
  let startDate := if purchaseDate < memberJoinDate then memberJoinDate else purchaseDate
  let calcEndDate0 := if depreciationEnd < today then depreciationEnd else today
  let calcEndDate1 :=
    match member.leave_date with
    | some leaveDate => if leaveDate < calcEndDate0 then leaveDate else calcEndDate0
    | none => calcEndDate0
  let calcEndDate :=
    match endDate with
    | some ed => if ed < calcEndDate1 then ed else calcEndDate1
    | none => calcEndDate1
  if calcEndDate < startDate then 0
  else if depreciationEnd < startDate then 0
  else
    let last := if calcEndDate < depreciationEnd then calcEndDate else depreciationEnd
    usageLoop allMembers perDayValue startDate (last + 1 - startDate).toNat

/-- `calculateInitialPaymentForItem`: equal split of `price` over the members
with `joinDate <= purchaseDate` for an original purchaser, otherwise the
buy-in amount. -/
def calculateInitialPaymentForItem (member : Member) (item : Item)
    (allMembers : List Member) : ℚ :=
  let purchaseDate := item.purchase_date
  let memberJoinDate := member.joined_at
  if memberJoinDate ≤ purchaseDate then
    let membersAtPurchase := allMembers.filter (fun m => m.joined_at ≤ purchaseDate)
    item.price / (membersAtPurchase.length : ℚ)
  else calculateBuyInForItem member item allMembers

structure MemberBalance where
  memberId : ℕ
  memberName : String
  initialPayment : ℚ
  usage : ℚ
  buyInPaid : ℚ
  buyInReceived : ℚ
  netBalance : ℚ
deriving DecidableEq, Repr

/-- One `laterMember` step of the effective `buyInReceived` accumulation in
`calculateMemberBalanceForItem` (the second `allMembers.forEach` loop; the
first loop is dead code, its accumulator being reset to `0` before this one
runs).  Note the source only checks that `member` is present on the later
member's join date — it does not require `member` itself to be one of the
`existingMembersAtThatTime` it divides by. -/
def buyInContributionFrom (member : Member) (item : Item)
    (allMembers : List Member) (laterMember : Member) : ℚ :=
  if laterMember.id = member.id then 0
  else
    let purchaseDate := item.purchase_date
    let depreciationEnd := getDepreciationEndDate item
    let laterJoinDate := laterMember.joined_at
    if purchaseDate < laterJoinDate ∧ laterJoinDate ≤ depreciationEnd then
      if isMemberPresentOnDay member laterJoinDate then
        let valueAtLaterJoin := getDepreciatedValueAtDate item laterJoinDate
        let allMembersAtThatTime := getMembersPresentOnDay allMembers laterJoinDate
        let existingMembersAtThatTime :=
          allMembersAtThatTime.filter (fun m => m.joined_at < laterJoinDate)
        if 0 < existingMembersAtThatTime.length then
          (valueAtLaterJoin / (allMembersAtThatTime.length : ℚ)) /
            (existingMembersAtThatTime.length : ℚ)
        else 0
      else 0
    else 0

/-- `calculateMemberBalanceForItem`.  The source computes `buyInReceived`
twice; the first computation is overwritten (`buyInReceived = 0`) and only the
second survives, embedded here via `buyInContributionFrom`.  The final line is
`netBalance = initialPayment - usage + buyInReceived - buyInPaid`. -/
def calculateMemberBalanceForItem (member : Member) (item : Item)
    (allMembers : List Member) (today : ℤ) : MemberBalance :=
  let purchaseDate := item.purchase_date
  let memberJoinDate := member.joined_at
  let isOriginalPurchaser := memberJoinDate ≤ purchaseDate
  let initialPayment := calculateInitialPaymentForItem member item allMembers
  let usage := calculateUsageForItem member item allMembers none today
  let buyInPaid :=
    if isOriginalPurchaser then 0 else calculateBuyInForItem member item allMembers
  let buyInReceived := allMembers.foldl
    (fun acc laterMember => acc + buyInContributionFrom member item allMembers laterMember) 0
  let netBalance := initialPayment - usage + buyInReceived - buyInPaid
  { memberId := member.id
    memberName := member.name
    initialPayment := initialPayment
    usage := usage
    buyInPaid := buyInPaid
    buyInReceived := buyInReceived
    netBalance := netBalance }

structure ItemBreakdown where
  item : Item
  initialPayment : ℚ
  usage : ℚ
  buyInPaid : ℚ
  buyInReceived : ℚ
  refundable : ℚ
  isLateJoiner : Bool
deriving DecidableEq, Repr

/-- `calculateItemBreakdown`: `null` when the member left on or before the
purchase date, or joined after the depreciation window ended; otherwise the
per-item balance with `refundable = netBalance` and the late-joiner flag. -/
def calculateItemBreakdown (member : Member) (item : Item)
    (allMembers : List Member) (today : ℤ) : Option ItemBreakdown :=
  let purchaseDate := item.purchase_date
  let memberJoinDate := member.joined_at
  let depreciationEnd := getDepreciationEndDate item
  if member.leave_date.any (fun leaveDate => leaveDate ≤ purchaseDate) then none
  else if depreciationEnd < memberJoinDate then none
  else
    let isLateJoiner : Bool := purchaseDate < memberJoinDate
    let balance := calculateMemberBalanceForItem member item allMembers today
    some
      { item := item
        initialPayment := balance.initialPayment
        usage := balance.usage
        buyInPaid := balance.buyInPaid
        buyInReceived := balance.buyInReceived
        refundable := balance.netBalance
        isLateJoiner := isLateJoiner }

structure MemberTotals where
  totalInitialPayment : ℚ
  totalUsage : ℚ
  totalBuyInPaid : ℚ
  totalBuyInReceived : ℚ
  totalRefundable : ℚ
deriving DecidableEq, Repr

/-- `calculateMemberTotals`: fold of the per-item breakdowns, skipping items
with a `null` breakdown. -/
def calculateMemberTotals (member : Member) (items : List Item)
    (allMembers : List Member) (today : ℤ) : MemberTotals :=
  items.foldl
    (fun totals item =>
      match calculateItemBreakdown member item allMembers today with
      | some breakdown =>
        { totalInitialPayment := totals.totalInitialPayment + breakdown.initialPayment
          totalUsage := totals.totalUsage + breakdown.usage
          totalBuyInPaid := totals.totalBuyInPaid + breakdown.buyInPaid
          totalBuyInReceived := totals.totalBuyInReceived + breakdown.buyInReceived
          totalRefundable := totals.totalRefundable + breakdown.refundable }
      | none => totals)
    { totalInitialPayment := 0, totalUsage := 0, totalBuyInPaid := 0
      totalBuyInReceived := 0, totalRefundable := 0 }

/-- `calculateTotalRefundForMember`: the `totalRefundable` component. -/
def calculateTotalRefundForMember (member : Member) (items : List Item)
    (allMembers : List Member) (today : ℤ) : ℚ :=
  (calculateMemberTotals member items allMembers today).totalRefundable

lemma getDepreciationDays_pos (item : Item) : 0 < getDepreciationDays item :=
  Nat.lt_of_lt_of_le Nat.one_pos (le_max_left _ _)

lemma isMemberPresentOnDay_self (member : Member)
    (hl : ∀ l ∈ member.leave_date, member.joined_at ≤ l) :
    isMemberPresentOnDay member member.joined_at = true := by
  unfold isMemberPresentOnDay
  rw [if_neg (lt_irrefl _)]
  cases hld : member.leave_date with
  | none => rfl
  | some l =>
    have := hl l (by simp [hld])
    simp [not_lt.mpr this]

lemma sum_map_const_of_mem (l : List Member) (f : Member → ℚ) (c : ℚ)
    (h : ∀ x ∈ l, f x = c) : (l.map f).sum = (l.length : ℚ) * c := by
  induction l with
  | nil => simp
  | cons a t ih =>
    have ha := h a (List.mem_cons_self a t)
    have ht := ih (fun x hx => h x (List.mem_cons_of_mem a hx))
    simp only [List.map_cons, List.sum_cons, ht, ha, List.length_cons]
    push_cast
    ring

/-- C5: in the Step 4 day loop, a day on which no member is present
contributes nothing to `usage` (the `presentCount > 0` guard), and whenever
the joining member is in `allMembers` with `leaveDate >= joinDate` (if any),
the buy-in denominator `|presentOn(allMembers, joinDate)|` is at least 1, so
the zero-count early return of `calculateBuyInForItem` is unreachable. -/
theorem usage_guard_and_buyin_denominator_pos :
    (∀ (allMembers : List Member) (perDayValue : ℚ) (cursor : ℤ) (n : ℕ),
        getMembersPresentOnDay allMembers cursor = [] →
        usageLoop allMembers perDayValue cursor (n + 1) =
          usageLoop allMembers perDayValue (cursor + 1) n)
    ∧ (∀ (member : Member) (allMembers : List Member),
        member ∈ allMembers →
        (∀ l ∈ member.leave_date, member.joined_at ≤ l) →
        0 < (getMembersPresentOnDay allMembers member.joined_at).length) := by
  constructor
  · intro allMembers perDayValue cursor n h
    have hstep : usageLoop allMembers perDayValue cursor (n + 1) =
        (if 0 < (getMembersPresentOnDay allMembers cursor).length then
            perDayValue / ((getMembersPresentOnDay allMembers cursor).length : ℚ)
          else 0) + usageLoop allMembers perDayValue (cursor + 1) n := rfl
    rw [hstep, h]
    simp
  · intro member allMembers hmem hl
    apply List.length_pos_of_mem
    exact List.mem_filter.mpr ⟨hmem, isMemberPresentOnDay_self member hl⟩

/-- Witness for `usage_guard_and_buyin_denominator_pos`. -/
theorem usage_guard_and_buyin_denominator_pos_witness :
    usageLoop [] 1 0 1 = usageLoop [] 1 1 0
    ∧ 0 < (getMembersPresentOnDay [⟨1, "A", 0, none⟩]
        (Member.joined_at ⟨1, "A", 0, none⟩)).length :=
  ⟨usage_guard_and_buyin_denominator_pos.1 [] 1 0 0 rfl,
   usage_guard_and_buyin_denominator_pos.2 ⟨1, "A", 0, none⟩ [⟨1, "A", 0, none⟩]
     (by simp) (by simp)⟩

/-- C10: `calculateInitialPaymentForItem` divides `item.price` by the count of
members with `joinDate <= purchaseDate` with no zero guard; when the member is
itself in `allMembers` and satisfies `joinDate <= purchaseDate`, that count is
at least 1 and the result is exactly `price / count`. -/
theorem initial_payment_denominator_pos (member : Member) (item : Item)
    (allMembers : List Member)
    (h1 : member ∈ allMembers)
    (h2 : member.joined_at ≤ item.purchase_date) :
    0 < (allMembers.filter (fun m => m.joined_at ≤ item.purchase_date)).length
    ∧ calculateInitialPaymentForItem member item allMembers =
        item.price /
          ((allMembers.filter (fun m => m.joined_at ≤ item.purchase_date)).length : ℚ) := by
  constructor
  · exact List.length_pos_of_mem (List.mem_filter.mpr ⟨h1, decide_eq_true h2⟩)
  · unfold calculateInitialPaymentForItem
    rw [if_pos h2]

/-- Witness for `initial_payment_denominator_pos`. -/
theorem initial_payment_denominator_pos_witness :
    0 < (([⟨1, "A", 0, none⟩] : List Member).filter
        (fun m => m.joined_at ≤ Item.purchase_date ⟨1, "I", 100, 0, none, some 100⟩)).length
    ∧ calculateInitialPaymentForItem ⟨1, "A", 0, none⟩ ⟨1, "I", 100, 0, none, some 100⟩
        [⟨1, "A", 0, none⟩] =
      Item.price ⟨1, "I", 100, 0, none, some 100⟩ /
        ((([⟨1, "A", 0, none⟩] : List Member).filter
          (fun m => m.joined_at ≤ Item.purchase_date ⟨1, "I", 100, 0, none, some 100⟩)).length : ℚ) :=
  initial_payment_denominator_pos ⟨1, "A", 0, none⟩ ⟨1, "I", 100, 0, none, some 100⟩
    [⟨1, "A", 0, none⟩] (by simp) (by decide)

/-- C3 (conservation): for a non-empty member list with no late joiners
(every `joinDate <= purchaseDate`), the original purchasers' `initialShare`
values sum to the item's price. -/
theorem conservation_no_late_joiners (item : Item) (allMembers : List Member)
    (h1 : allMembers ≠ [])
    (h2 : ∀ m ∈ allMembers, m.joined_at ≤ item.purchase_date) :
    (allMembers.map (fun m => calculateInitialPaymentForItem m item allMembers)).sum =
      item.price := by
  have hfilter : allMembers.filter (fun m => m.joined_at ≤ item.purchase_date) = allMembers :=
    List.filter_eq_self.mpr (fun m hm => decide_eq_true (h2 m hm))
  have hf : ∀ m ∈ allMembers,
      calculateInitialPaymentForItem m item allMembers =
        item.price / (allMembers.length : ℚ) := by
    intro m hm
    unfold calculateInitialPaymentForItem
    rw [if_pos (h2 m hm), hfilter]
  rw [sum_map_const_of_mem _ _ _ hf]
  have hn : (allMembers.length : ℚ) ≠ 0 := by
    have := List.length_pos.mpr h1
    exact_mod_cast Nat.pos_iff_ne_zero.mp this
  rw [mul_comm, div_mul_cancel₀ _ hn]

/-- Witness for `conservation_no_late_joiners`. -/
theorem conservation_no_late_joiners_witness :
    (([⟨1, "A", 0, none⟩, ⟨2, "B", -3, none⟩] : List Member).map
      (fun m => calculateInitialPaymentForItem m ⟨1, "I", 100, 0, none, some 100⟩
        [⟨1, "A", 0, none⟩, ⟨2, "B", -3, none⟩])).sum =
    Item.price ⟨1, "I", 100, 0, none, some 100⟩ :=
  conservation_no_late_joiners ⟨1, "I", 100, 0, none, some 100⟩
    [⟨1, "A", 0, none⟩, ⟨2, "B", -3, none⟩] (by simp) (by decide)

lemma value_of_lt_purchase (item : Item) (d : ℤ) (h : d < item.purchase_date) :
    getDepreciatedValueAtDate item d = item.price := by
  unfold getDepreciatedValueAtDate
  rw [if_pos h]

lemma value_of_fully_elapsed (item : Item) (d : ℤ)
    (h : (getDepreciationDays item : ℤ) ≤ d - item.purchase_date) :
    getDepreciatedValueAtDate item d = 0 := by
  have hD : (0 : ℤ) < (getDepreciationDays item : ℤ) := by
    exact_mod_cast getDepreciationDays_pos item
  unfold getDepreciatedValueAtDate
  rw [if_neg (by omega), if_pos h]

lemma value_of_in_window (item : Item) (d : ℤ)
    (h1 : ¬ d < item.purchase_date)
    (h2 : d - item.purchase_date < (getDepreciationDays item : ℤ)) :
    getDepreciatedValueAtDate item d =
      (item.price / (getDepreciationDays item : ℚ)) *
        ((getDepreciationDays item : ℚ) - ((d - item.purchase_date : ℤ) : ℚ)) := by
  unfold getDepreciatedValueAtDate
  rw [if_neg h1, if_neg (not_le.mpr h2)]

lemma value_nonneg (item : Item) (h : 0 ≤ item.price) (d : ℤ) :
    0 ≤ getDepreciatedValueAtDate item d := by
  have hDq : (0 : ℚ) < (getDepreciationDays item : ℚ) := by
    exact_mod_cast getDepreciationDays_pos item
  by_cases h1 : d < item.purchase_date
  · rw [value_of_lt_purchase item d h1]; exact h
  · by_cases h2 : (getDepreciationDays item : ℤ) ≤ d - item.purchase_date
    · rw [value_of_fully_elapsed item d h2]
    · rw [value_of_in_window item d h1 (not_le.mp h2)]
      have he : ((d - item.purchase_date : ℤ) : ℚ) < (getDepreciationDays item : ℚ) := by
        exact_mod_cast not_le.mp h2
      exact mul_nonneg (div_nonneg h hDq.le) (by linarith)

lemma value_le_price (item : Item) (h : 0 ≤ item.price) (d : ℤ) :
    getDepreciatedValueAtDate item d ≤ item.price := by
  have hDq : (0 : ℚ) < (getDepreciationDays item : ℚ) := by
    exact_mod_cast getDepreciationDays_pos item
  by_cases h1 : d < item.purchase_date
  · rw [value_of_lt_purchase item d h1]
  · by_cases h2 : (getDepreciationDays item : ℤ) ≤ d - item.purchase_date
    · rw [value_of_fully_elapsed item d h2]; exact h
    · rw [value_of_in_window item d h1 (not_le.mp h2)]
      have he : (0 : ℚ) ≤ ((d - item.purchase_date : ℤ) : ℚ) := by
        exact_mod_cast (by omega : (0 : ℤ) ≤ d - item.purchase_date)
      calc (item.price / (getDepreciationDays item : ℚ)) *
            ((getDepreciationDays item : ℚ) - ((d - item.purchase_date : ℤ) : ℚ))
          ≤ (item.price / (getDepreciationDays item : ℚ)) * (getDepreciationDays item : ℚ) :=
            mul_le_mul_of_nonneg_left (by linarith) (div_nonneg h hDq.le)
        _ = item.price := div_mul_cancel₀ _ hDq.ne'

/-- C4: for any item (the engine's depreciation length is always at least 1)
with non-negative price, the depreciated value is `0` at every date at least
`depreciationDays` days after purchase, and is monotonically non-increasing in
the date. -/
theorem depreciation_zero_after_window_and_antitone (item : Item)
    (h : 0 ≤ item.price) :
    (∀ d : ℤ, item.purchase_date + (getDepreciationDays item : ℤ) ≤ d →
        getDepreciatedValueAtDate item d = 0)
    ∧ ∀ d1 d2 : ℤ, d1 ≤ d2 →
        getDepreciatedValueAtDate item d2 ≤ getDepreciatedValueAtDate item d1 := by
  have hDq : (0 : ℚ) < (getDepreciationDays item : ℚ) := by
    exact_mod_cast getDepreciationDays_pos item
  constructor
  · intro d hd
    exact value_of_fully_elapsed item d (by omega)
  · intro d1 d2 h12
    by_cases h2p : d2 < item.purchase_date
    · rw [value_of_lt_purchase item d2 h2p, value_of_lt_purchase item d1 (by omega)]
    · by_cases h1p : d1 < item.purchase_date
      · rw [value_of_lt_purchase item d1 h1p]
        exact value_le_price item h d2
      · by_cases hfull1 : (getDepreciationDays item : ℤ) ≤ d1 - item.purchase_date
        · rw [value_of_fully_elapsed item d1 hfull1,
            value_of_fully_elapsed item d2 (by omega)]
        · by_cases hfull2 : (getDepreciationDays item : ℤ) ≤ d2 - item.purchase_date
          · rw [value_of_fully_elapsed item d2 hfull2]
            exact value_nonneg item h d1
          · rw [value_of_in_window item d1 h1p (not_le.mp hfull1),
              value_of_in_window item d2 h2p (not_le.mp hfull2)]
            have hc : ((d1 - item.purchase_date : ℤ) : ℚ) ≤
                ((d2 - item.purchase_date : ℤ) : ℚ) := by
              exact_mod_cast (by omega : d1 - item.purchase_date ≤ d2 - item.purchase_date)
            exact mul_le_mul_of_nonneg_left (by linarith) (div_nonneg h hDq.le)

/-- Witness for `depreciation_zero_after_window_and_antitone`. -/
theorem depreciation_zero_after_window_and_antitone_witness :
    getDepreciatedValueAtDate ⟨1, "I", 100, 0, none, some 10⟩ 10 = 0
    ∧ getDepreciatedValueAtDate ⟨1, "I", 100, 0, none, some 10⟩ 7 ≤
        getDepreciatedValueAtDate ⟨1, "I", 100, 0, none, some 10⟩ 3 :=
  ⟨(depreciation_zero_after_window_and_antitone ⟨1, "I", 100, 0, none, some 10⟩
      (by norm_num)).1 10 (by decide),
   (depreciation_zero_after_window_and_antitone ⟨1, "I", 100, 0, none, some 10⟩
      (by norm_num)).2 3 7 (by decide)⟩

/-- C6: the per-(member, item) breakdown is `none` exactly when the member's
leave date is on or before the item's purchase date, or the member's join
date is after the depreciation window's end. -/
theorem breakdown_none_iff (member : Member) (item : Item)
    (allMembers : List Member) (today : ℤ) :
    calculateItemBreakdown member item allMembers today = none ↔
      ((∃ l ∈ member.leave_date, l ≤ item.purchase_date)
        ∨ getDepreciationEndDate item < member.joined_at) := by
  unfold calculateItemBreakdown
  cases hld : member.leave_date with
  | none =>
    simp only [Option.any_none, Bool.false_eq_true, if_false, hld]
    split_ifs with h
    · simp [h]
    · simp [h]
  | some l =>
    simp only [Option.any_some, hld]
    split_ifs with h1 h2
    · simp_all
    · simp_all
    · simp_all

/-- Witness for `breakdown_none_iff` (a member who left on the purchase date
has a `none` breakdown). -/
theorem breakdown_none_iff_witness :
    calculateItemBreakdown ⟨1, "A", -5, some 0⟩ ⟨1, "I", 100, 0, none, some 100⟩
      [⟨1, "A", -5, some 0⟩] 10 = none :=
  (breakdown_none_iff ⟨1, "A", -5, some 0⟩ ⟨1, "I", 100, 0, none, some 100⟩
      [⟨1, "A", -5, some 0⟩] 10).mpr (Or.inl ⟨0, rfl, le_refl 0⟩)

/-- C7: a member whose join date equals the item's purchase date is treated
as an original purchaser: `buyInPaid` is `0`, `initialPayment` is the equal
purchase-time split `price / count(joinDate <= purchaseDate)`, and any
breakdown produced carries `isLateJoiner = false`. -/
theorem join_on_purchase_date_is_original_purchaser (member : Member)
    (item : Item) (allMembers : List Member) (today : ℤ)
    (h : member.joined_at = item.purchase_date) :
    (calculateMemberBalanceForItem member item allMembers today).buyInPaid = 0
    ∧ (calculateMemberBalanceForItem member item allMembers today).initialPayment =
        item.price /
          ((allMembers.filter (fun m => m.joined_at ≤ item.purchase_date)).length : ℚ)
    ∧ (calculateItemBreakdown member item allMembers today).all
        (fun b => !b.isLateJoiner) = true := by
  have hle : member.joined_at ≤ item.purchase_date := le_of_eq h
  have hnlt : ¬ item.purchase_date < member.joined_at := not_lt.mpr hle
  refine ⟨?_, ?_, ?_⟩
  · simp only [calculateMemberBalanceForItem]
    rw [if_pos hle]
  · simp only [calculateMemberBalanceForItem]
    unfold calculateInitialPaymentForItem
    rw [if_pos hle]
  · simp only [calculateItemBreakdown]
    split_ifs with h1 h2
    · rfl
    · rfl
    · simp [Option.all, hnlt]

/-- Witness for `join_on_purchase_date_is_original_purchaser`. -/
theorem join_on_purchase_date_is_original_purchaser_witness :
    (calculateMemberBalanceForItem ⟨1, "A", 0, none⟩ ⟨1, "I", 100, 0, none, some 100⟩
        [⟨1, "A", 0, none⟩] 5).buyInPaid = 0
    ∧ (calculateMemberBalanceForItem ⟨1, "A", 0, none⟩ ⟨1, "I", 100, 0, none, some 100⟩
        [⟨1, "A", 0, none⟩] 5).initialPayment =
        Item.price ⟨1, "I", 100, 0, none, some 100⟩ /
          ((([⟨1, "A", 0, none⟩] : List Member).filter
            (fun m => m.joined_at ≤ Item.purchase_date ⟨1, "I", 100, 0, none, some 100⟩)).length : ℚ)
    ∧ (calculateItemBreakdown ⟨1, "A", 0, none⟩ ⟨1, "I", 100, 0, none, some 100⟩
        [⟨1, "A", 0, none⟩] 5).all (fun b => !b.isLateJoiner) = true :=
  join_on_purchase_date_is_original_purchaser ⟨1, "A", 0, none⟩
    ⟨1, "I", 100, 0, none, some 100⟩ [⟨1, "A", 0, none⟩] 5 rfl

lemma value_of_price_zero (item : Item) (h : item.price = 0) (d : ℤ) :
    getDepreciatedValueAtDate item d = 0 := by
  by_cases h1 : d < item.purchase_date
  · rw [value_of_lt_purchase item d h1, h]
  · by_cases h2 : (getDepreciationDays item : ℤ) ≤ d - item.purchase_date
    · exact value_of_fully_elapsed item d h2
    · rw [value_of_in_window item d h1 (not_le.mp h2), h, zero_div, zero_mul]

lemma buyin_of_price_zero (member : Member) (item : Item)
    (allMembers : List Member) (h : item.price = 0) :
    calculateBuyInForItem member item allMembers = 0 := by
  simp only [calculateBuyInForItem, value_of_price_zero item h]
  split
  · rfl
  · rw [if_pos le_rfl]

lemma usageLoop_of_perDay_zero (allMembers : List Member) (cursor : ℤ)
    (n : ℕ) : usageLoop allMembers 0 cursor n = 0 := by
  induction n generalizing cursor with
  | zero => rfl
  | succ n ih =>
    have hstep : usageLoop allMembers 0 cursor (n + 1) =
        (if 0 < (getMembersPresentOnDay allMembers cursor).length then
            (0 : ℚ) / ((getMembersPresentOnDay allMembers cursor).length : ℚ)
          else 0) + usageLoop allMembers 0 (cursor + 1) n := rfl
    rw [hstep, ih]
    split <;> simp

lemma usage_of_price_zero (member : Member) (item : Item)
    (allMembers : List Member) (endDate : Option ℤ) (today : ℤ)
    (h : item.price = 0) :
    calculateUsageForItem member item allMembers endDate today = 0 := by
  simp only [calculateUsageForItem, h, zero_div]
  repeat' split
  all_goals first
    | rfl
    | exact usageLoop_of_perDay_zero _ _ _

lemma contribution_of_price_zero (member : Member) (item : Item)
    (allMembers : List Member) (laterMember : Member) (h : item.price = 0) :
    buyInContributionFrom member item allMembers laterMember = 0 := by
  simp only [buyInContributionFrom, value_of_price_zero item h, zero_div]
  split <;> [rfl; skip]
  split <;> [skip; rfl]
  split <;> [skip; rfl]
  split <;> rfl

lemma foldl_add_eq_of_forall_zero {α : Type} (l : List α) (f : α → ℚ) (a : ℚ)
    (h : ∀ x ∈ l, f x = 0) : l.foldl (fun acc x => acc + f x) a = a := by
  induction l generalizing a with
  | nil => rfl
  | cons x t ih =>
    simp only [List.foldl_cons, h x (List.mem_cons_self x t), add_zero]
    exact ih a (fun y hy => h y (List.mem_cons_of_mem x hy))

lemma initial_payment_of_price_zero (member : Member) (item : Item)
    (allMembers : List Member) (h : item.price = 0) :
    calculateInitialPaymentForItem member item allMembers = 0 := by
  simp only [calculateInitialPaymentForItem, h, zero_div]
  split
  · rfl
  · exact buyin_of_price_zero member item allMembers h

/-- C9: an item with `price = 0` yields an all-zero balance for every member
of the snapshot — a degenerate-but-valid input, not an error. -/
theorem zero_price_all_zero_balance (member : Member) (item : Item)
    (allMembers : List Member) (today : ℤ)
    (_hmem : member ∈ allMembers) (h : item.price = 0) :
    calculateMemberBalanceForItem member item allMembers today =
      ⟨member.id, member.name, 0, 0, 0, 0, 0⟩ := by
  have h1 := initial_payment_of_price_zero member item allMembers h
  have h2 := usage_of_price_zero member item allMembers none today h
  have h3 := buyin_of_price_zero member item allMembers h
  have h4 : allMembers.foldl
      (fun acc laterMember => acc + buyInContributionFrom member item allMembers laterMember)
      0 = 0 :=
    foldl_add_eq_of_forall_zero _ _ _
      (fun lm _ => contribution_of_price_zero member item allMembers lm h)
  simp only [calculateMemberBalanceForItem, h1, h2, h3, h4, ite_self,
    MemberBalance.mk.injEq]
  norm_num

/-- Witness for `zero_price_all_zero_balance`. -/
theorem zero_price_all_zero_balance_witness :
    calculateMemberBalanceForItem ⟨1, "A", 0, none⟩ ⟨1, "I", 0, 0, none, some 100⟩
      [⟨1, "A", 0, none⟩] 5 = ⟨1, "A", 0, 0, 0, 0, 0⟩ :=
  zero_price_all_zero_balance ⟨1, "A", 0, none⟩ ⟨1, "I", 0, 0, none, some 100⟩
    [⟨1, "A", 0, none⟩] 5 (by simp) rfl

lemma intToNat_ten : Int.toNat 10 = 10 := rfl

lemma intToNat_hundred : Int.toNat 100 = 100 := rfl

/-- C1 (evaluation at the failing input): for a late joiner (B joins day 10;
item of price 100 bought day 0, 100-day depreciation; members A and B;
current date day 10) the source's
`netBalance = initialPayment - usage + buyInReceived - buyInPaid` evaluates
to `-1/2`, whereas `initialShare - usage + buyInReceived` is `89/2`: the
extra `- buyInPaid` cancels the late joiner's buy-in credit. -/
theorem netbalance_subtracts_buyin_at_failing_input :
    (calculateMemberBalanceForItem ⟨2, "B", 10, none⟩ ⟨1, "I", 100, 0, none, some 100⟩
      [⟨1, "A", 0, none⟩, ⟨2, "B", 10, none⟩] 10).netBalance = -(1 / 2 : ℚ)
    ∧ (calculateMemberBalanceForItem ⟨2, "B", 10, none⟩ ⟨1, "I", 100, 0, none, some 100⟩
        [⟨1, "A", 0, none⟩, ⟨2, "B", 10, none⟩] 10).netBalance ≠
      (calculateMemberBalanceForItem ⟨2, "B", 10, none⟩ ⟨1, "I", 100, 0, none, some 100⟩
        [⟨1, "A", 0, none⟩, ⟨2, "B", 10, none⟩] 10).initialPayment -
      (calculateMemberBalanceForItem ⟨2, "B", 10, none⟩ ⟨1, "I", 100, 0, none, some 100⟩
        [⟨1, "A", 0, none⟩, ⟨2, "B", 10, none⟩] 10).usage +
      (calculateMemberBalanceForItem ⟨2, "B", 10, none⟩ ⟨1, "I", 100, 0, none, some 100⟩
        [⟨1, "A", 0, none⟩, ⟨2, "B", 10, none⟩] 10).buyInReceived := by
  norm_num [calculateMemberBalanceForItem, calculateInitialPaymentForItem,
    calculateBuyInForItem, calculateUsageForItem, usageLoop, buyInContributionFrom,
    getDepreciatedValueAtDate, getDepreciationDays, getDepreciationEndDate,
    getMembersPresentOnDay, isMemberPresentOnDay, intToNat_hundred]

/-- C2 (evaluation at the failing input): A joins day 0, M and L both join
day 10 (item of price 100 bought day 0, 100-day depreciation).  M did not
join strictly before L, yet the code credits M with a full incumbent share
`(valueAt(10)/3)/1 = 30` of L's buy-in, because it only checks that M is
present on L's join date, never that M is one of the incumbents it divides
by. -/
theorem buyin_credited_to_non_incumbent_at_failing_input :
    (calculateMemberBalanceForItem ⟨2, "M", 10, none⟩ ⟨1, "I", 100, 0, none, some 100⟩
      [⟨1, "A", 0, none⟩, ⟨2, "M", 10, none⟩, ⟨3, "L", 10, none⟩] 10).buyInReceived = 30
    ∧ buyInContributionFrom ⟨2, "M", 10, none⟩ ⟨1, "I", 100, 0, none, some 100⟩
        [⟨1, "A", 0, none⟩, ⟨2, "M", 10, none⟩, ⟨3, "L", 10, none⟩] ⟨3, "L", 10, none⟩ = 30
    ∧ ¬ Member.joined_at ⟨2, "M", 10, none⟩ < Member.joined_at ⟨3, "L", 10, none⟩ := by
  norm_num [calculateMemberBalanceForItem, calculateInitialPaymentForItem,
    calculateBuyInForItem, calculateUsageForItem, usageLoop, buyInContributionFrom,
    getDepreciatedValueAtDate, getDepreciationDays, getDepreciationEndDate,
    getMembersPresentOnDay, isMemberPresentOnDay, intToNat_hundred]

/-- C8 (counterexample): the source's usage computation reads the ambient
current date (`new Date()`); the identical snapshot evaluated on day 0 and on
day 1 yields different totals, so the allocation is not a function of the
member/item snapshots alone. -/
theorem allocation_depends_on_current_date :
    calculateMemberTotals ⟨1, "A", 0, none⟩ [⟨1, "I", 100, 0, none, some 10⟩]
      [⟨1, "A", 0, none⟩] 0 ≠
    calculateMemberTotals ⟨1, "A", 0, none⟩ [⟨1, "I", 100, 0, none, some 10⟩]
      [⟨1, "A", 0, none⟩] 1 := by
  norm_num [calculateMemberTotals, calculateItemBreakdown, calculateMemberBalanceForItem,
    calculateInitialPaymentForItem, calculateBuyInForItem, calculateUsageForItem, usageLoop,
    buyInContributionFrom, getDepreciatedValueAtDate, getDepreciationDays,
    getDepreciationEndDate, getMembersPresentOnDay, isMemberPresentOnDay, intToNat_ten,
    MemberTotals.mk.injEq]

/-- C8 (amended): once the ambient current date is made an explicit input,
the allocation is a pure function: two invocations on identical member/item
snapshots with the same current date return identical per-member totals and
per-item balances. -/
theorem allocation_deterministic_given_today (member : Member)
    (items : List Item) (allMembers : List Member) (today : ℤ) (item : Item) :
    calculateMemberTotals member items allMembers today =
      calculateMemberTotals member items allMembers today
    ∧ calculateMemberBalanceForItem member item allMembers today =
      calculateMemberBalanceForItem member item allMembers today :=
  ⟨rfl, rfl⟩
